import Mathlib

/-!
Shallow embedding of `src/nativeshell/src/shell/platform/linux/keyboard_map.rs`.

The GDK keymap service is modelled as a structure of read-only query
functions; machine integers (`i64`, `u32`, `u8`) are modelled as `Int`/`Nat`
with explicit truncation (`emod 256`, `emod 2^32`) at every Rust cast.
A Rust `Option::unwrap` on `None` (a panic) is modelled as `Except.error ()`;
all functions that can reach such an unwrap return `Except Unit _`.
-/

set_option maxRecDepth 40000

deriving instance DecidableEq for Except

namespace NativeShellKeyboard

/-- A GDK `KeymapKey`: hardware keycode plus layout group and shift level. -/
structure KeymapKey where
  keycode : Nat
  group : Int
  level : Int
  deriving DecidableEq

/-- The live GDK keymap service, modelled by its three read-only queries used
by the source: `entries_for_keyval`, `lookup_key` (keycode to keyval) and
`to_unicode` (keyval to Unicode scalar value). -/
structure Keymap where
  entries_for_keyval : Nat → List KeymapKey
  lookup : KeymapKey → Option Nat
  to_unicode : Nat → Option Nat

/-- Modelled from the spec: `KeyMapEntry` is declared in the build-generated
`generated_keyboard_map.rs`, which is not under `src/`. The spec gives the
fields `physical`, `platform` and a per-entry fallback code; the source
additionally reads a distinct `entry.logical` field on the live path
(line 161) next to `entry.fallback` on the unreachable-service path
(line 179), so both optional code fields are modelled. -/
structure KeyMapEntry where
  platform : Int
  physical : Int
  logical : Option Int
  fallback : Option Int
  deriving DecidableEq

/-- Mirror of `crate::shell::api_model::Key`: only `logical` and `logical_shift` are
ever populated by this platform code. -/
structure Key where
  platform : Int
  physical : Int
  logical : Option Int
  logical_shift : Option Int
  logical_alt : Option Int
  logical_alt_shift : Option Int
  logical_meta : Option Int
  deriving DecidableEq

/-- Mirror of `crate::shell::api_model::KeyboardMap`. -/
structure KeyboardMap where
  keys : List Key
  deriving DecidableEq

/-- Rust `x as u32` on an `i64` value. -/
def as_u32 (x : Int) : Nat :=
  (x.emod 4294967296).toNat

/-- Source `lookup_key` (lines 25 to 36): reject the two anomalous keycodes 36 and
37, resolve keycode to keyval to Unicode, reject control characters. -/
def lookup_key (km : Keymap) (key : KeymapKey) : Option Int :=
  if key.keycode = 36 ∨ key.keycode = 37 then
    none
  else
    match (km.lookup key).bind km.to_unicode with
    | none => none
    | some u => if (u : Int) < 0x20 then none else some (u : Int)

/-- Source `get_key` (lines 38 to 40): first service entry matching group and
level. -/
def get_key (km : Keymap) (code : Nat) (group : Nat) (level : Nat) : Option KeymapKey :=
  (km.entries_for_keyval code).find? fun k => k.group == (group : Int) && k.level == (level : Int)

/-- Source `is_ascii` (lines 97 to 109). The source unwraps the `get_key` result;
a missing entry is therefore a panic, modelled as `Except.error ()`.
Code points 97, 122, 48, 57 are the characters a, z, 0, 9. -/
def is_ascii (km : Keymap) (group : Nat) (code : Nat) : Except Unit Bool :=
  match get_key km code group 0 with
  | none => Except.error ()
  | some k =>
    match lookup_key km k with
    | some key =>
      if key < 256 then
        Except.ok (decide ((97 ≤ key.emod 256 ∧ key.emod 256 ≤ 122) ∨
          (48 ≤ key.emod 256 ∧ key.emod 256 ≤ 57)))
      else
        Except.ok false
    | none => Except.ok false

/-- The loop body shared by the four `for` loops of `is_ascii_capable`:
checks every code in the list, returning `ok false` at the first failing
key and propagating a panic. -/
def all_ascii (km : Keymap) (group : Nat) : List Nat → Except Unit Bool
  | [] => Except.ok true
  | c :: rest =>
    match is_ascii km group c with
    | Except.error e => Except.error e
    | Except.ok true => all_ascii km group rest
    | Except.ok false => Except.ok false

/-- The three letter-row keycode ranges of `is_ascii_capable`, in source
order: 24 to 32 (Q to P), 38 to 45 (A to L), 52 to 57 (Z to M). -/
def letter_row_codes : List Nat :=
  List.range' 24 9 ++ List.range' 38 8 ++ List.range' 52 6

/-- The digit-row keycode range 10 to 18 of `is_ascii_capable`. -/
def digit_row_codes : List Nat :=
  List.range' 10 9

/-- Source `is_ascii_capable` (lines 111 to 141): all letter-row keys must pass
`is_ascii`; with `including_numbers` the digit-row keys are checked with the
same `is_ascii` predicate. -/
def is_ascii_capable (km : Keymap) (including_numbers : Bool) (group : Nat) : Except Unit Bool :=
  match all_ascii km group letter_row_codes with
  | Except.error e => Except.error e
  | Except.ok false => Except.ok false
  | Except.ok true =>
    if including_numbers then
      all_ascii km group digit_row_codes
    else
      Except.ok true

/-- The `for group in 0..3` loops of `get_group`: first group in the list
satisfying `is_ascii_capable`. -/
def find_capable (km : Keymap) (including_numbers : Bool) : List Nat → Except Unit (Option Nat)
  | [] => Except.ok none
  | g :: rest =>
    match is_ascii_capable km including_numbers g with
    | Except.error e => Except.error e
    | Except.ok true => Except.ok (some g)
    | Except.ok false => find_capable km including_numbers rest

/-- Source `get_group` (lines 75 to 95). -/
def get_group (km : Keymap) (current_group : Nat) : Except Unit Nat :=
  match is_ascii_capable km false current_group with
  | Except.error e => Except.error e
  | Except.ok true => Except.ok current_group
  | Except.ok false =>
    match find_capable km true [0, 1, 2] with
    | Except.error e => Except.error e
    | Except.ok (some g) => Except.ok g
    | Except.ok none =>
      match find_capable km false [0, 1, 2] with
      | Except.error e => Except.error e
      | Except.ok (some g) => Except.ok g
      | Except.ok none => Except.ok current_group

/-- Source `key_from_entry` (lines 143 to 167). Both `get_key` results are
unwrapped by the source, so a missing service entry panics; the level 1
unwrap is only reached when the level 0 lookup produced a character. -/
def key_from_entry (km : Keymap) (group : Nat) (entry : KeyMapEntry) : Except Unit Key :=
  match get_key km (as_u32 entry.platform) group 0 with
  | none => Except.error ()
  | some k0 =>
    match lookup_key km k0 with
    | some key =>
      match get_key km (as_u32 entry.platform) group 1 with
      | none => Except.error ()
      | some k1 =>
        Except.ok
          { platform := entry.platform
            physical := entry.physical
            logical := some key
            logical_shift := lookup_key km k1
            logical_alt := none
            logical_alt_shift := none
            logical_meta := none }
    | none =>
      Except.ok
        { platform := entry.platform
          physical := entry.physical
          logical := entry.logical
          logical_shift := none
          logical_alt := none
          logical_alt_shift := none
          logical_meta := none }

/-- The `map` over the key table in `create_keyboard_layout` (lines 64 to
67), with panic propagation. -/
def keys_from_entries (km : Keymap) (group : Nat) : List KeyMapEntry → Except Unit (List Key)
  | [] => Except.ok []
  | e :: rest =>
    match key_from_entry km group e with
    | Except.error err => Except.error err
    | Except.ok k =>
      match keys_from_entries km group rest with
      | Except.error err => Except.error err
      | Except.ok ks => Except.ok (k :: ks)

/-- Source `_shift_key` (lines 196 to 228), on Unicode code points. The literal
pairs are the US punctuation table of the Rust `match`; the arithmetic arm
is the lowercase-to-uppercase conversion `(c as u8 as i32 + delta) as u8`
with `delta = 65 - 97`. -/
def _shift_key (key : Nat) : Nat :=
  if key = 96 then 126
  else if key = 49 then 33
  else if key = 50 then 64
  else if key = 51 then 35
  else if key = 52 then 36
  else if key = 53 then 37
  else if key = 54 then 94
  else if key = 55 then 38
  else if key = 56 then 42
  else if key = 57 then 40
  else if key = 48 then 41
  else if key = 45 then 95
  else if key = 61 then 43
  else if key = 91 then 123
  else if key = 93 then 125
  else if key = 92 then 124
  else if key = 59 then 58
  else if key = 39 then 34
  else if key = 44 then 60
  else if key = 46 then 62
  else if key = 47 then 63
  else if 97 ≤ key ∧ key ≤ 122 then
    ((((key % 256 : Nat) : Int) + (65 - 97)).emod 256).toNat
  else key

/-- Source `shift_key` (lines 187 to 193): byte-range guard, `as u8` truncations on
the way in and out of `_shift_key`. -/
def shift_key (key : Int) : Option Int :=
  if key < 256 then
    some (((_shift_key (key.emod 256).toNat % 256 : Nat) : Int))
  else
    none

/-- Source `fallback_key_from_entry` (lines 175 to 185). -/
def fallback_key_from_entry (entry : KeyMapEntry) : Key :=
  { platform := entry.platform
    physical := entry.physical
    logical := entry.fallback
    logical_shift := entry.fallback.bind shift_key
    logical_alt := none
    logical_alt_shift := none
    logical_meta := none }

/-- Source `fallback_map` (lines 169 to 173). -/
def fallback_map (keys : List KeyMapEntry) : KeyboardMap :=
  { keys := keys.map fallback_key_from_entry }

/-- Source `create_keyboard_layout` (lines 59 to 73). `Display::default()` and
`Keymap::for_display` are collapsed into one `Option Keymap` argument: the
source falls through to `fallback_map` when either is `None`. The key
table baked in by `get_key_map()` is the `table` argument. -/
def create_keyboard_layout (table : List KeyMapEntry) (service : Option Keymap)
    (current_group : Nat) : Except Unit KeyboardMap :=
  match service with
  | some km =>
    match get_group km current_group with
    | Except.error e => Except.error e
    | Except.ok group =>
      match keys_from_entries km group table with
      | Except.error e => Except.error e
      | Except.ok ks => Except.ok { keys := ks }
  | none => Except.ok (fallback_map table)

/-- The mutable fields of `PlatformKeyboardMap`: the observed group, the
memoized layout, and whether the weak delegate reference still upgrades. -/
structure PKMState where
  current_group : Nat
  current_layout : Option KeyboardMap
  delegate_alive : Bool
  deriving DecidableEq

/-- Source `get_current_map` (lines 52 to 57): return the cached map or build and
memoize it. The second component of the result is the post-state. -/
def get_current_map (table : List KeyMapEntry) (service : Option Keymap)
    (st : PKMState) : Except Unit (KeyboardMap × PKMState) :=
  match st.current_layout with
  | some m => Except.ok (m, st)
  | none =>
    match create_keyboard_layout table service st.current_group with
    | Except.error e => Except.error e
    | Except.ok m => Except.ok (m, { st with current_layout := some m })

/-- Source `on_layout_changed` (lines 244 to 249): clear the cache and notify the
delegate when its weak reference upgrades. The second component counts
delegate notifications. -/
def on_layout_changed (st : PKMState) : PKMState × Nat :=
  ({ st with current_layout := none }, if st.delegate_alive then 1 else 0)

/-- Source `on_key_event` (lines 234 to 242). The event is modelled as the group
it carries; `none` models an event that does not downcast to `EventKey`. -/
def on_key_event (st : PKMState) (event : Option Nat) : PKMState × Nat :=
  match event with
  | none => (st, 0)
  | some group =>
    if group ≠ st.current_group then
      on_layout_changed { st with current_group := group }
    else
      (st, 0)

/-!
Concrete service states and table entries used as evaluation inputs.
-/

/-- A service where every keycode has entries for groups 0, 1, 2 at levels
0 and 1, and every key resolves to the character a (code point 97). -/
def kmAllA : Keymap where
  entries_for_keyval := fun c =>
    [{ keycode := c, group := 0, level := 0 }, { keycode := c, group := 0, level := 1 },
     { keycode := c, group := 1, level := 0 }, { keycode := c, group := 1, level := 1 },
     { keycode := c, group := 2, level := 0 }, { keycode := c, group := 2, level := 1 }]
  lookup := fun _ => some 97
  to_unicode := fun v => some v

/-- A service with entries everywhere whose keys all resolve to the control
character 1, so every `lookup_key` yields `none` without panicking. -/
def kmCtl : Keymap where
  entries_for_keyval := fun c =>
    [{ keycode := c, group := 0, level := 0 }, { keycode := c, group := 0, level := 1 },
     { keycode := c, group := 1, level := 0 }, { keycode := c, group := 1, level := 1 },
     { keycode := c, group := 2, level := 0 }, { keycode := c, group := 2, level := 1 }]
  lookup := fun _ => some 1
  to_unicode := fun v => some v

/-- A service that has no entry for any keycode at all. -/
def kmEmpty : Keymap where
  entries_for_keyval := fun _ => []
  lookup := fun _ => none
  to_unicode := fun _ => none

/-- A table entry whose static `logical` and `fallback` fields differ. -/
def e0 : KeyMapEntry :=
  { platform := 24, physical := 7, logical := some 10, fallback := some 20 }

/-- A one-entry key table. -/
def table0 : List KeyMapEntry := [e0]

/-- The map built from `table0` against `kmAllA`. -/
def M0 : KeyboardMap :=
  { keys := [{ platform := 24, physical := 7, logical := some 97, logical_shift := some 97,
               logical_alt := none, logical_alt_shift := none, logical_meta := none }] }

/-- The map built from `table0` against `kmCtl`: the level 0 lookup is
filtered as a control character, so the static `logical` field is used. -/
def M0ctl : KeyboardMap :=
  { keys := [{ platform := 24, physical := 7, logical := some 10, logical_shift := none,
               logical_alt := none, logical_alt_shift := none, logical_meta := none }] }

/-- Initial state: group 0 observed, nothing cached, delegate alive. -/
def st0 : PKMState :=
  { current_group := 0, current_layout := none, delegate_alive := true }

/-- State `st0` after memoizing the fallback build of `table0`. -/
def st0b : PKMState :=
  { current_group := 0, current_layout := some (fallback_map table0), delegate_alive := true }


/-- The punctuation pairs of the Rust `match` in `_shift_key`, written on
code points: backtick to tilde, the digit row to its symbols, and the
remaining US punctuation pairs. -/
def us_shift_pairs : List (Nat × Nat) :=
  [(96, 126), (49, 33), (50, 64), (51, 35), (52, 36), (53, 37), (54, 94), (55, 38),
   (56, 42), (57, 40), (48, 41), (45, 95), (61, 43), (91, 123), (93, 125), (92, 124),
   (59, 58), (39, 34), (44, 60), (46, 62), (47, 63)]

/-- State with group 0 and a cached map, used as the C6 witness start
state. -/
def st1 : PKMState :=
  { current_group := 0, current_layout := some (fallback_map table0), delegate_alive := true }

/-- What the amended claim C3 asserts of one produced key: platform and
physical copied; when the level 0 lookup resolves a character it becomes
`logical` and the level 1 lookup becomes `logical_shift`; when the level 0
lookup yields `none` the entry's static `logical` field (not its
`fallback` field) is used in its place and the shift is left `none`. -/
def entry_matches (km : Keymap) (g : Nat) (e : KeyMapEntry) (k : Key) : Prop :=
  k.platform = e.platform ∧ k.physical = e.physical ∧
  ∀ k0, get_key km (as_u32 e.platform) g 0 = some k0 →
    (lookup_key km k0 = none → k.logical = e.logical ∧ k.logical_shift = none) ∧
    (∀ v, lookup_key km k0 = some v → k.logical = some v ∧
      ∀ k1, get_key km (as_u32 e.platform) g 1 = some k1 → k.logical_shift = lookup_key km k1)

/-!
Helper lemmas.
-/

/-- `_shift_key` is the identity outside the punctuation table and the
lowercase range. -/
lemma shift_key_out_of_table (n : Nat) (h96 : n ≠ 96) (h49 : n ≠ 49) (h50 : n ≠ 50)
    (h51 : n ≠ 51) (h52 : n ≠ 52) (h53 : n ≠ 53) (h54 : n ≠ 54) (h55 : n ≠ 55)
    (h56 : n ≠ 56) (h57 : n ≠ 57) (h48 : n ≠ 48) (h45 : n ≠ 45) (h61 : n ≠ 61)
    (h91 : n ≠ 91) (h93 : n ≠ 93) (h92 : n ≠ 92) (h59 : n ≠ 59) (h39 : n ≠ 39)
    (h44 : n ≠ 44) (h46 : n ≠ 46) (h47 : n ≠ 47) (hlc : ¬(97 ≤ n ∧ n ≤ 122)) :
    _shift_key n = n := by
  unfold _shift_key
  rw [if_neg h96, if_neg h49, if_neg h50, if_neg h51, if_neg h52, if_neg h53, if_neg h54,
    if_neg h55, if_neg h56, if_neg h57, if_neg h48, if_neg h45, if_neg h61, if_neg h91,
    if_neg h93, if_neg h92, if_neg h59, if_neg h39, if_neg h44, if_neg h46, if_neg h47,
    if_neg hlc]

/-!
Claim theorems.
-/

/-- Claim C1 (code bug evidence): when the live service has no entry
matching the requested group and level, the source does not return `None`:
`is_ascii` and `key_from_entry` unwrap the missing entry and panic
(`Except.error`), and the panic propagates through `is_ascii_capable`,
`get_group` and `create_keyboard_layout` to the caller. -/
theorem C1_missing_entry_panics :
    get_key kmEmpty 24 0 0 = none ∧
    is_ascii kmEmpty 0 24 = Except.error () ∧
    key_from_entry kmEmpty 0 e0 = Except.error () ∧
    is_ascii_capable kmEmpty false 0 = Except.error () ∧
    get_group kmEmpty 0 = Except.error () ∧
    create_keyboard_layout table0 (some kmEmpty) 0 = Except.error () := by
  decide


/-- Claim C7: the shift deriver is total on code points below 256 (it is
`some` of `_shift_key`), maps each US punctuation pair to its partner, maps
lowercase letters to the corresponding uppercase letters (code point minus
32), leaves every other code point below 256 unchanged, and returns `none`
for any code of 256 or more. -/
theorem C7_shift_deriver :
    (∀ c : Int, 256 ≤ c → shift_key c = none) ∧
    (∀ k : Fin 256, shift_key ((k.val : Nat) : Int) = some ((_shift_key k.val : Nat) : Int)) ∧
    (∀ p ∈ us_shift_pairs, _shift_key p.1 = p.2) ∧
    (∀ k : Fin 256, 97 ≤ k.val → k.val ≤ 122 → _shift_key k.val = k.val - 32) ∧
    (∀ k : Fin 256, k.val ∉ us_shift_pairs.map Prod.fst → ¬(97 ≤ k.val ∧ k.val ≤ 122) →
      _shift_key k.val = k.val) := by
  refine ⟨?_, by decide, by decide, by decide, by decide⟩
  intro c hc
  unfold shift_key
  rw [if_neg (by omega)]

/-- Witness for C7 at concrete inputs: code 300 is rejected, the backtick
pair is in the table and maps to tilde. -/
theorem C7_witness :
    ((256 : Int) ≤ 300 ∧ shift_key 300 = none) ∧
    ((96, 126) ∈ us_shift_pairs ∧ _shift_key 96 = 126) :=
  ⟨⟨by decide, C7_shift_deriver.1 300 (by decide)⟩,
   ⟨by decide, C7_shift_deriver.2.2.1 (96, 126) (by decide)⟩⟩

/-- Claim C8: `lookup_key` returns `none` for the two anomalous keycodes 36
(Enter) and 37 (Left Control) whatever the service resolves, returns `none`
when the service resolution fails or produces a control character below
0x20, and otherwise returns the resolved code point. -/
theorem C8_lookup_filters (km : Keymap) (key : KeymapKey) :
    ((key.keycode = 36 ∨ key.keycode = 37) → lookup_key km key = none) ∧
    (key.keycode ≠ 36 → key.keycode ≠ 37 →
      (((km.lookup key).bind km.to_unicode) = none → lookup_key km key = none) ∧
      (∀ u : Nat, ((km.lookup key).bind km.to_unicode) = some u →
        ((u : Int) < 32 → lookup_key km key = none) ∧
        (32 ≤ (u : Int) → lookup_key km key = some (u : Int)))) := by
  constructor
  · intro h
    simp [lookup_key, h]
  · intro h36 h37
    have hcond : ¬(key.keycode = 36 ∨ key.keycode = 37) := by
      intro h
      cases h with
      | inl h => exact h36 h
      | inr h => exact h37 h
    constructor
    · intro hres
      simp [lookup_key, hcond, hres]
    · intro u hres
      constructor
      · intro hu
        simp [lookup_key, hcond, hres, hu]
      · intro hu
        simp only [lookup_key, if_neg hcond, hres]
        rw [if_neg (by omega)]

/-- Witness for C8: the Enter keycode 36 is filtered even though the
service would resolve it, and keycode 24 resolves to the letter a. -/
theorem C8_witness :
    (((36 : Nat) = 36 ∨ (36 : Nat) = 37) ∧
      lookup_key kmAllA { keycode := 36, group := 0, level := 0 } = none) ∧
    lookup_key kmAllA { keycode := 24, group := 0, level := 0 } = some 97 := by
  constructor
  · exact ⟨Or.inl rfl,
      (C8_lookup_filters kmAllA { keycode := 36, group := 0, level := 0 }).1 (Or.inl rfl)⟩
  · have h := ((C8_lookup_filters kmAllA { keycode := 24, group := 0, level := 0 }).2
      (by decide) (by decide)).2 97 (by decide)
    exact h.2 (by decide)

/-- Claim C10: the US shift mapping is idempotent on every code point: no
output of the punctuation table or of the lowercase-to-uppercase conversion
is itself an input that the mapping changes. -/
theorem C10_shift_idempotent (n : Nat) : _shift_key (_shift_key n) = _shift_key n := by
  by_cases h : n < 256
  · have hfin : ∀ m : Fin 256, _shift_key (_shift_key m.val) = _shift_key m.val := by decide
    exact hfin ⟨n, h⟩
  · have hn : 256 ≤ n := Nat.le_of_not_lt h
    have h1 : _shift_key n = n :=
      shift_key_out_of_table n (by omega) (by omega) (by omega) (by omega) (by omega)
        (by omega) (by omega) (by omega) (by omega) (by omega) (by omega) (by omega)
        (by omega) (by omega) (by omega) (by omega) (by omega) (by omega) (by omega)
        (by omega) (by omega) (by omega)
    rw [h1]
    exact h1

/-- Whatever `get_current_map` returns was also stored in the post-state
cache: the cache is only ever written with the returned map. -/
lemma get_current_map_caches (table : List KeyMapEntry) (service : Option Keymap)
    (st : PKMState) (m : KeyboardMap) (st2 : PKMState)
    (h : get_current_map table service st = Except.ok (m, st2)) :
    st2.current_layout = some m := by
  unfold get_current_map at h
  cases hl : st.current_layout with
  | some m0 =>
    rw [hl] at h
    injection h with h1
    injection h1 with h2 h3
    subst h2
    subst h3
    exact hl
  | none =>
    rw [hl] at h
    cases hc : create_keyboard_layout table service st.current_group with
    | error e => rw [hc] at h; cases h
    | ok m1 =>
      rw [hc] at h
      injection h with h1
      injection h1 with h2 h3
      subst h2
      subst h3
      rfl

/-- Claim C5: with the live service unreachable, the build returns the
fallback map: one key per table entry in order, `logical` equal to the
entry fallback, `logical_shift` equal to the shift deriver of the fallback
when it is present and below 256, `none` otherwise. -/
theorem C5_fallback_build (table : List KeyMapEntry) (cur : Nat) :
    create_keyboard_layout table none cur = Except.ok (fallback_map table) ∧
    (fallback_map table).keys.length = table.length ∧
    ∀ i (hi : i < table.length) (hk : i < (fallback_map table).keys.length),
      ((fallback_map table).keys.get ⟨i, hk⟩).platform = (table.get ⟨i, hi⟩).platform ∧
      ((fallback_map table).keys.get ⟨i, hk⟩).physical = (table.get ⟨i, hi⟩).physical ∧
      ((fallback_map table).keys.get ⟨i, hk⟩).logical = (table.get ⟨i, hi⟩).fallback ∧
      ((fallback_map table).keys.get ⟨i, hk⟩).logical_shift =
        (match (table.get ⟨i, hi⟩).fallback with
         | some f => if f < 256 then shift_key f else none
         | none => none) := by
  refine ⟨rfl, by simp [fallback_map], ?_⟩
  intro i hi hk
  have hget : (fallback_map table).keys.get ⟨i, hk⟩ =
      fallback_key_from_entry (table.get ⟨i, hi⟩) := by
    simp [fallback_map]
  rw [hget]
  refine ⟨rfl, rfl, rfl, ?_⟩
  show (table.get ⟨i, hi⟩).fallback.bind shift_key = _
  cases hf : (table.get ⟨i, hi⟩).fallback with
  | none => rfl
  | some f =>
    show shift_key f = if f < 256 then shift_key f else none
    by_cases hf2 : f < 256
    · rw [if_pos hf2]
    · rw [if_neg hf2]
      unfold shift_key
      rw [if_neg hf2]

/-- Witness for C5 on the one-entry table: the fallback code 20 becomes
`logical` and its derived shift is 20 itself (20 is neither punctuation nor
a lowercase letter). -/
theorem C5_witness :
    create_keyboard_layout table0 none 0 = Except.ok (fallback_map table0) ∧
    ((fallback_map table0).keys.get ⟨0, by decide⟩).logical = (table0.get ⟨0, by decide⟩).fallback := by
  have h := C5_fallback_build table0 0
  exact ⟨h.1, ((h.2.2 0 (by decide) (by decide)).2.2).1⟩

/-- Claim C9: a second `get_current_map` call without an intervening group
change returns the same map and state, and it does so whatever table and
service are supplied, so it performs no new external queries. -/
theorem C9_cache_coherence (table : List KeyMapEntry) (service : Option Keymap)
    (st : PKMState) (m : KeyboardMap) (st2 : PKMState)
    (h : get_current_map table service st = Except.ok (m, st2)) :
    get_current_map table service st2 = Except.ok (m, st2) ∧
    ∀ (table2 : List KeyMapEntry) (service2 : Option Keymap),
      get_current_map table2 service2 st2 = Except.ok (m, st2) := by
  have hcl : st2.current_layout = some m := get_current_map_caches table service st m st2 h
  refine ⟨?_, fun table2 service2 => ?_⟩ <;> simp [get_current_map, hcl]

/-- Witness for C9: the fallback build of the one-entry table is memoized
and returned unchanged by the second call. -/
theorem C9_witness :
    get_current_map table0 none st0 = Except.ok (fallback_map table0, st0b) ∧
    get_current_map table0 none st0b = Except.ok (fallback_map table0, st0b) := by
  have h : get_current_map table0 none st0 = Except.ok (fallback_map table0, st0b) := by decide
  exact ⟨h, (C9_cache_coherence table0 none st0 (fallback_map table0) st0b h).1⟩

/-- Claim C6: an observed event with a group different from the current one
updates the group, clears the cache, and notifies the delegate exactly once
(zero times when the delegate is gone); an event with no group or the same
group changes nothing; `get_current_map` never clears the cache; and the
rebuild after the change runs group selection from the new group. -/
theorem C6_group_change (st : PKMState) (g : Nat) (h : g ≠ st.current_group) :
    on_key_event st (some g) =
      ({ current_group := g, current_layout := none, delegate_alive := st.delegate_alive },
        if st.delegate_alive then 1 else 0) ∧
    on_key_event st none = (st, 0) ∧
    on_key_event st (some st.current_group) = (st, 0) ∧
    (∀ table service m st2, get_current_map table service st = Except.ok (m, st2) →
      st2.current_layout = some m) ∧
    (∀ table service m st2,
      get_current_map table service (on_key_event st (some g)).1 = Except.ok (m, st2) →
      create_keyboard_layout table service g = Except.ok m) := by
  have h1 : on_key_event st (some g) =
      ({ current_group := g, current_layout := none, delegate_alive := st.delegate_alive },
        if st.delegate_alive then 1 else 0) := by
    simp [on_key_event, on_layout_changed, h]
  refine ⟨h1, rfl, by simp [on_key_event], fun table service m st2 hm =>
    get_current_map_caches table service st m st2 hm, ?_⟩
  intro table service m st2 hm
  rw [h1] at hm
  unfold get_current_map at hm
  simp only at hm
  cases hc : create_keyboard_layout table service g with
  | error e => rw [hc] at hm; cases hm
  | ok m1 =>
    rw [hc] at hm
    injection hm with hm1
    injection hm1 with hm2 hm3
    subst hm2
    rfl


/-- Witness for C6: an event carrying group 2 while group 0 is current and
a map is cached clears the cache, sets group 2 and notifies once. -/
theorem C6_witness :
    (2 ≠ st1.current_group) ∧
    on_key_event st1 (some 2) =
      ({ current_group := 2, current_layout := none, delegate_alive := true }, 1) := by
  refine ⟨by decide, ?_⟩
  have h := (C6_group_change st1 2 (by decide)).1
  simpa using h

/-- The `is_ascii_capable` loop succeeds exactly when every code in the
list passes `is_ascii`. -/
lemma all_ascii_ok_true_iff (km : Keymap) (g : Nat) (l : List Nat) :
    all_ascii km g l = Except.ok true ↔ ∀ c ∈ l, is_ascii km g c = Except.ok true := by
  induction l with
  | nil => simp [all_ascii]
  | cons c rest ih =>
    cases hc : is_ascii km g c with
    | error e =>
      simp only [all_ascii, hc]
      constructor
      · intro h
        cases h
      · intro h
        have hcon := h c (List.mem_cons_self c rest)
        rw [hc] at hcon
        cases hcon
    | ok b =>
      cases b with
      | false =>
        simp only [all_ascii, hc]
        constructor
        · intro h
          cases h
        · intro h
          have hcon := h c (List.mem_cons_self c rest)
          rw [hc] at hcon
          cases hcon
      | true =>
        simp only [all_ascii, hc]
        rw [ih]
        constructor
        · intro h x hx
          rcases List.mem_cons.mp hx with rfl | hx2
          · exact hc
          · exact h x hx2
        · intro h x hx
          exact h x (List.mem_cons_of_mem c hx)

/-- Claim C2 counterexample: in a layout whose digit-row keys produce the
lowercase letter a (code 97, not a digit), the numbers-inclusive predicate
still holds, because the source checks the digit row with the same
`is_ascii` test as the letter rows. -/
theorem C2_counterexample :
    is_ascii_capable kmAllA true 0 = Except.ok true ∧
    get_key kmAllA 10 0 0 = some { keycode := 10, group := 0, level := 0 } ∧
    lookup_key kmAllA { keycode := 10, group := 0, level := 0 } = some 97 ∧
    ¬((48 : Int) ≤ 97 ∧ (97 : Int) ≤ 57) := by
  refine ⟨by decide, by decide, by decide, by decide⟩

/-- Claim C2 as amended: the ASCII-capable predicate (when it does not
panic) holds iff every letter-row key passes `is_ascii` and, with
`including_numbers`, every digit-row key passes the same `is_ascii` test,
which accepts a lowercase letter as well as a digit; and `is_ascii` for a
resolvable key holds iff the resolved code point is below 256 and its low
byte is in the lowercase range 97 to 122 or the digit range 48 to 57. -/
theorem C2_ascii_capable (km : Keymap) (incl : Bool) (g : Nat) (b : Bool)
    (h : is_ascii_capable km incl g = Except.ok b) :
    (b = true ↔ ((∀ c ∈ letter_row_codes, is_ascii km g c = Except.ok true) ∧
      (incl = true → ∀ c ∈ digit_row_codes, is_ascii km g c = Except.ok true))) ∧
    (∀ code k, get_key km code g 0 = some k →
      (is_ascii km g code = Except.ok true ↔
        ∃ u, lookup_key km k = some u ∧ u < 256 ∧
          ((97 ≤ u.emod 256 ∧ u.emod 256 ≤ 122) ∨ (48 ≤ u.emod 256 ∧ u.emod 256 ≤ 57)))) := by
  constructor
  · unfold is_ascii_capable at h
    cases hl : all_ascii km g letter_row_codes with
    | error e => rw [hl] at h; cases h
    | ok bl =>
      rw [hl] at h
      cases bl with
      | false =>
        injection h with h1
        subst h1
        constructor
        · intro hb
          cases hb
        · intro hb
          have : all_ascii km g letter_row_codes = Except.ok true :=
            (all_ascii_ok_true_iff km g letter_row_codes).mpr hb.1
          rw [hl] at this
          simp at this
      | true =>
        cases incl with
        | false =>
          simp only [Bool.false_eq_true, if_false] at h
          injection h with h1
          subst h1
          simp only [true_iff]
          refine ⟨(all_ascii_ok_true_iff km g letter_row_codes).mp hl, ?_⟩
          intro hcon
          cases hcon
        | true =>
          rw [if_pos rfl] at h
          constructor
          · intro hb
            subst hb
            refine ⟨(all_ascii_ok_true_iff km g letter_row_codes).mp hl, fun _ => ?_⟩
            exact (all_ascii_ok_true_iff km g digit_row_codes).mp h
          · intro hb
            have hd : all_ascii km g digit_row_codes = Except.ok true :=
              (all_ascii_ok_true_iff km g digit_row_codes).mpr (hb.2 rfl)
            rw [hd] at h
            injection h with h1
            exact h1.symm
  · intro code k hk
    simp only [is_ascii, hk]
    cases hlk : lookup_key km k with
    | none =>
      simp only [hlk]
      refine iff_of_false (by decide) ?_
      intro hex
      obtain ⟨u, hu, _⟩ := hex
      exact Option.noConfusion hu
    | some u =>
      simp only [hlk]
      by_cases hu : u < 256
      · rw [if_pos hu]
        constructor
        · intro htrue
          injection htrue with h1
          exact ⟨u, rfl, hu, of_decide_eq_true h1⟩
        · intro hex
          obtain ⟨u2, hu2, hlt, hrange⟩ := hex
          injection hu2 with h2
          subst h2
          exact congrArg Except.ok (decide_eq_true hrange)
      · rw [if_neg hu]
        refine iff_of_false (by decide) ?_
        intro hex
        obtain ⟨u2, hu2, hlt, _⟩ := hex
        injection hu2 with h2
        subst h2
        exact absurd hlt hu

/-- Witness for C2 at the all-letters layout: the predicate holds and the
first top-row key passes the per-key check. -/
theorem C2_witness :
    is_ascii_capable kmAllA false 0 = Except.ok true ∧
    is_ascii kmAllA 0 24 = Except.ok true := by
  have h := (C2_ascii_capable kmAllA false 0 true (by decide)).1
  have hrows := (h.mp rfl).1
  exact ⟨by decide, hrows 24 (by decide)⟩

/-- A group returned by the `for group in 0..3` scan is in the scanned
list. -/
lemma find_capable_mem (km : Keymap) (incl : Bool) (l : List Nat) (g : Nat)
    (h : find_capable km incl l = Except.ok (some g)) : g ∈ l := by
  induction l with
  | nil => cases h
  | cons x rest ih =>
    unfold find_capable at h
    cases hx : is_ascii_capable km incl x with
    | error e => rw [hx] at h; cases h
    | ok b =>
      rw [hx] at h
      cases b with
      | true =>
        injection h with h1
        injection h1 with h2
        subst h2
        exact List.mem_cons_self x rest
      | false => exact List.mem_cons_of_mem x (ih h)

/-- Any group `get_group` returns is the current one or one of 0, 1, 2. -/
lemma get_group_mem (km : Keymap) (cur : Nat) (r : Nat)
    (h : get_group km cur = Except.ok r) : r = cur ∨ r = 0 ∨ r = 1 ∨ r = 2 := by
  unfold get_group at h
  cases hc : is_ascii_capable km false cur with
  | error e => rw [hc] at h; cases h
  | ok b =>
    rw [hc] at h
    cases b with
    | true =>
      injection h with h1
      exact Or.inl h1.symm
    | false =>
      cases hn : find_capable km true [0, 1, 2] with
      | error e => rw [hn] at h; cases h
      | ok o =>
        rw [hn] at h
        cases o with
        | some g =>
          have hmem := find_capable_mem km true [0, 1, 2] g hn
          simp only [List.mem_cons, List.mem_singleton, List.not_mem_nil, or_false] at hmem
          injection h with h1
          subst h1
          exact Or.inr hmem
        | none =>
          cases hn2 : find_capable km false [0, 1, 2] with
          | error e => rw [hn2] at h; cases h
          | ok o2 =>
            rw [hn2] at h
            cases o2 with
            | some g =>
              have hmem := find_capable_mem km false [0, 1, 2] g hn2
              simp only [List.mem_cons, List.mem_singleton, List.not_mem_nil, or_false] at hmem
              injection h with h1
              subst h1
              exact Or.inr hmem
            | none =>
              injection h with h1
              exact Or.inl h1.symm

/-- Claim C4: `get_group` keeps the current group when it is letters-only
ASCII-capable, otherwise takes the first of groups 0, 1, 2 that is
ASCII-capable including numbers, otherwise the first that is letters-only
capable, otherwise the current group; and every returned group is the
current one or in 0, 1, 2. -/
theorem C4_select_group (km : Keymap) (cur : Nat)
    (bc b0n b1n b2n b0l b1l b2l : Bool)
    (hc : is_ascii_capable km false cur = Except.ok bc)
    (h0n : is_ascii_capable km true 0 = Except.ok b0n)
    (h1n : is_ascii_capable km true 1 = Except.ok b1n)
    (h2n : is_ascii_capable km true 2 = Except.ok b2n)
    (h0l : is_ascii_capable km false 0 = Except.ok b0l)
    (h1l : is_ascii_capable km false 1 = Except.ok b1l)
    (h2l : is_ascii_capable km false 2 = Except.ok b2l) :
    get_group km cur =
      Except.ok (if bc then cur
        else if b0n then 0 else if b1n then 1 else if b2n then 2
        else if b0l then 0 else if b1l then 1 else if b2l then 2 else cur) ∧
    (bc = true → get_group km cur = Except.ok cur) ∧
    (∀ r, get_group km cur = Except.ok r → r = cur ∨ r = 0 ∨ r = 1 ∨ r = 2) := by
  have hmain : get_group km cur =
      Except.ok (if bc then cur
        else if b0n then 0 else if b1n then 1 else if b2n then 2
        else if b0l then 0 else if b1l then 1 else if b2l then 2 else cur) := by
    cases bc <;> cases b0n <;> cases b1n <;> cases b2n <;> cases b0l <;> cases b1l <;>
      cases b2l <;> simp_all [get_group, find_capable]
  refine ⟨hmain, ?_, fun r hr => get_group_mem km cur r hr⟩
  intro hbc
  subst hbc
  rw [hmain, if_pos rfl]

/-- Witness for C4 at the all-letters layout with current group 1: the
current group is letters-only capable and is kept. -/
theorem C4_witness :
    is_ascii_capable kmAllA false 1 = Except.ok true ∧
    get_group kmAllA 1 = Except.ok 1 := by
  have h := (C4_select_group kmAllA 1 true true true true true true true (by decide)
    (by decide) (by decide) (by decide) (by decide) (by decide) (by decide)).2.1 rfl
  exact ⟨by decide, h⟩

/-- Field-level description of one key produced by `key_from_entry` when it
does not panic: platform and physical copied from the entry; when the
level 0 lookup fails the static `logical` field of the entry is used and
the shift is `none`; when it resolves, the resolved code point is the
logical key and the level 1 lookup result is the shift. -/
lemma key_from_entry_spec (km : Keymap) (g : Nat) (e : KeyMapEntry) (k : Key)
    (h : key_from_entry km g e = Except.ok k) :
    k.platform = e.platform ∧ k.physical = e.physical ∧
    k.logical_alt = none ∧ k.logical_alt_shift = none ∧ k.logical_meta = none ∧
    ∀ k0, get_key km (as_u32 e.platform) g 0 = some k0 →
      (lookup_key km k0 = none → k.logical = e.logical ∧ k.logical_shift = none) ∧
      (∀ v, lookup_key km k0 = some v → k.logical = some v ∧
        ∀ k1, get_key km (as_u32 e.platform) g 1 = some k1 →
          k.logical_shift = lookup_key km k1) := by
  unfold key_from_entry at h
  cases hg0 : get_key km (as_u32 e.platform) g 0 with
  | none => simp only [hg0] at h; cases h
  | some q0 =>
    simp only [hg0] at h
    cases hl0 : lookup_key km q0 with
    | some v0 =>
      simp only [hl0] at h
      cases hg1 : get_key km (as_u32 e.platform) g 1 with
      | none => simp only [hg1] at h; cases h
      | some q1 =>
        simp only [hg1] at h
        injection h with h1
        subst h1
        refine ⟨rfl, rfl, rfl, rfl, rfl, ?_⟩
        intro k0 hk0
        injection hk0 with hk0e
        subst hk0e
        constructor
        · intro hnone
          rw [hl0] at hnone
          cases hnone
        · intro v hv
          rw [hl0] at hv
          injection hv with hve
          subst hve
          refine ⟨rfl, ?_⟩
          intro k1 hk1
          injection hk1 with hk1e
          subst hk1e
          rfl
    | none =>
      simp only [hl0] at h
      injection h with h1
      subst h1
      refine ⟨rfl, rfl, rfl, rfl, rfl, ?_⟩
      intro k0 hk0
      injection hk0 with hk0e
      subst hk0e
      constructor
      · intro _
        exact ⟨rfl, rfl⟩
      · intro v hv
        rw [hl0] at hv
        cases hv

/-- The table map of the live build is positional: entry `i` produces key
`i`. -/
lemma keys_from_entries_spec (km : Keymap) (g : Nat) :
    ∀ (l : List KeyMapEntry) (ks : List Key), keys_from_entries km g l = Except.ok ks →
      ks.length = l.length ∧
      ∀ i (hi : i < l.length) (hk : i < ks.length),
        key_from_entry km g (l.get ⟨i, hi⟩) = Except.ok (ks.get ⟨i, hk⟩) := by
  intro l
  induction l with
  | nil =>
    intro ks h
    unfold keys_from_entries at h
    injection h with h1
    subst h1
    exact ⟨rfl, fun i hi => absurd hi (Nat.not_lt_zero i)⟩
  | cons e rest ih =>
    intro ks h
    unfold keys_from_entries at h
    cases he : key_from_entry km g e with
    | error err => rw [he] at h; cases h
    | ok k =>
      rw [he] at h
      cases hr : keys_from_entries km g rest with
      | error err => rw [hr] at h; cases h
      | ok krest =>
        rw [hr] at h
        injection h with h1
        subst h1
        obtain ⟨hlen, hall⟩ := ih krest hr
        refine ⟨by simp [hlen], ?_⟩
        intro i hi hk
        cases i with
        | zero => simpa using he
        | succ j =>
          have hj : j < rest.length := by simpa using hi
          have hjk : j < krest.length := by simpa using hk
          exact hall j hj hjk


/-- Claim C3 counterexample: against a service that resolves every key to
a control character, every level 0 lookup yields `none`, and the produced
key's `logical` is the entry's static `logical` field (10), not the
entry's `fallback` field (20) as the claim states. -/
theorem C3_counterexample :
    create_keyboard_layout table0 (some kmCtl) 0 = Except.ok M0ctl ∧
    e0.fallback = some 20 ∧
    (M0ctl.keys.get ⟨0, by decide⟩).logical = some 10 ∧
    (M0ctl.keys.get ⟨0, by decide⟩).logical = e0.logical ∧
    (M0ctl.keys.get ⟨0, by decide⟩).logical ≠ e0.fallback := by
  refine ⟨by decide, by decide, by decide, by decide, by decide⟩

/-- Claim C3 as amended: whenever the live build returns a map, there is a
selected group such that the map has exactly one key per table entry in
table order, each matching its entry: `logical` is the level 0 lookup when
it resolves (with the level 1 lookup as `logical_shift`), and otherwise the
entry's static `logical` table field stands in, with `logical_shift` left
`none`. -/
theorem C3_build_live (table : List KeyMapEntry) (km : Keymap) (cur : Nat) (m : KeyboardMap)
    (h : create_keyboard_layout table (some km) cur = Except.ok m) :
    ∃ g, get_group km cur = Except.ok g ∧
      m.keys.length = table.length ∧
      ∀ i (hi : i < table.length) (hk : i < m.keys.length),
        entry_matches km g (table.get ⟨i, hi⟩) (m.keys.get ⟨i, hk⟩) := by
  unfold create_keyboard_layout at h
  cases hg : get_group km cur with
  | error e => simp only [hg] at h; cases h
  | ok g =>
    simp only [hg] at h
    cases hks : keys_from_entries km g table with
    | error e => simp only [hks] at h; cases h
    | ok ks =>
      simp only [hks] at h
      injection h with h1
      subst h1
      obtain ⟨hlen, hall⟩ := keys_from_entries_spec km g table ks hks
      refine ⟨g, rfl, hlen, ?_⟩
      intro i hi hk
      have he := hall i hi hk
      have hspec := key_from_entry_spec km g (table.get ⟨i, hi⟩) (ks.get ⟨i, hk⟩) he
      exact ⟨hspec.1, hspec.2.1, hspec.2.2.2.2.2⟩

/-- Witness for C3 on the one-entry table against the all-letters service:
the build succeeds and produces one key per entry. -/
theorem C3_witness :
    create_keyboard_layout table0 (some kmAllA) 0 = Except.ok M0 ∧
    M0.keys.length = table0.length := by
  have h : create_keyboard_layout table0 (some kmAllA) 0 = Except.ok M0 := by decide
  obtain ⟨g, hg, hlen, hall⟩ := C3_build_live table0 kmAllA 0 M0 h
  exact ⟨h, hlen⟩

end NativeShellKeyboard
